import Mathlib

/-!
Verification of the CoCoChain vehicular-consensus core (CoCoChainApp.cc /
VehicleApp.cc) against its natural-language specification.

The C++ core is shallowly embedded below:
* simulated time (OMNeT++ simtime_t) is modelled as a rational number;
* C++ doubles are modelled as rational numbers (real-closed where sqrt is
  needed); machine integers are Nat/Int with explicit reduction mod 2^64
  where 64-bit wraparound matters;
* std::map / std::set are modelled as association lists / lists of keys with
  lookup, insert-or-assign and erase helpers; only the operations the code
  performs on them are used;
* signal emission (emit(...)) is modelled by returning the emitted sample as
  an Option value next to the post-state.
-/

/-! ## Association-list helpers (model of std::map operations) -/

/-- Model of std::map::erase: drop every binding of key k. -/
def eraseKey {κ : Type} {α : Type} [DecidableEq κ] :
    List (κ × α) → κ → List (κ × α)
  | [], _ => []
  | p :: rest, k => if p.1 = k then eraseKey rest k else p :: eraseKey rest k

/-- Model of std::map::find / lookup of key k. -/
def lookupKey {κ : Type} {α : Type} [DecidableEq κ] :
    List (κ × α) → κ → Option α
  | [], _ => none
  | p :: rest, k => if p.1 = k then some p.2 else lookupKey rest k

/-- Model of std::map::operator[] assignment: bind key k to v, replacing any
previous binding. -/
def insertKey {κ : Type} {α : Type} [DecidableEq κ] (m : List (κ × α)) (k : κ)
    (v : α) : List (κ × α) :=
  (k, v) :: eraseKey m k

theorem lookupKey_eraseKey_self {κ α : Type} [DecidableEq κ]
    (m : List (κ × α)) (k : κ) : lookupKey (eraseKey m k) k = none := by
  induction m with
  | nil => rfl
  | cons p rest ih =>
      by_cases h : p.1 = k <;> simp [eraseKey, lookupKey, h, ih]

theorem lookupKey_insertKey_self {κ α : Type} [DecidableEq κ]
    (m : List (κ × α)) (k : κ) (v : α) :
    lookupKey (insertKey m k v) k = some v := by
  simp [insertKey, lookupKey]

/-! ## Data model (CoCoChainApp.h) -/

/-- struct ConceptVector. `data` holds the D coordinates (doubles modelled
as rationals); bookkeeping flags as in the header. -/
structure ConceptVector where
  data : List Rat
  timestamp : Nat
  nodeId : Int
  isCorrupted : Bool
  isTopK : Bool
deriving DecidableEq

/-- struct Transaction (CoCoChainApp.h). -/
structure Transaction where
  id : Nat
  conceptVector : ConceptVector
  semanticDigest : String
  timestamp : Nat
  originator : Int
  verified : Bool
deriving DecidableEq

/-- enum ConsensusMessage::Type { PROPOSE, VOTE, COMMIT }. -/
inductive CMType where
  | PROPOSE
  | VOTE
  | COMMIT
deriving DecidableEq

/-- struct ConsensusMessage. -/
structure ConsensusMessage where
  type : CMType
  transactionId : Nat
  senderId : Int
  vote : Bool
  timestamp : Nat
deriving DecidableEq

/-! ## Transaction-id allocation (sendTransaction) -/

/-- CoCoChainApp::sendTransaction, id line:
tx.id = ++transactionCounter + (getId() * 1000000ULL).
`counter` is the value of transactionCounter AFTER the pre-increment; the
sum wraps at 64 bits (uint64_t arithmetic). -/
def cocoTxId (nodeId counter : Nat) : Nat :=
  (counter + nodeId * 1000000) % 2 ^ 64

/-- VehicleApp::sendTransaction, id line:
uint64_t txId = vehicleId * 1000000 + transactionCounter (after increment). -/
def vehicleTxId (vehicleId counter : Nat) : Nat :=
  (vehicleId * 1000000 + counter) % 2 ^ 64

/-! ## Vehicle handover state machine (VehicleApp.cc) -/

/-- The VehicleApp fields touched by completeHandover: currentRSU, targetRSU,
inHandover, and the rsuContactTimes map (std::map<int, simtime_t>). -/
structure VehicleState where
  currentRSU : Int
  targetRSU : Int
  inHandover : Bool
  rsuContactTimes : List (Int × Rat)
deriving DecidableEq

/-- VehicleApp::completeHandover(int rsuId, bool success).
Source: early return unless (inHandover and rsuId == targetRSU); on success
currentRSU := targetRSU and rsuContactTimes[currentRSU] := now; both branches
then clear inHandover and set targetRSU := -1. -/
def completeHandover (st : VehicleState) (rsuId : Int) (success : Bool)
    (now : Rat) : VehicleState :=
  if !st.inHandover || rsuId ≠ st.targetRSU then st
  else
    let st1 :=
      if success then
        { st with
            currentRSU := st.targetRSU
            rsuContactTimes := insertKey st.rsuContactTimes st.targetRSU now }
      else st
    { st1 with inHandover := false, targetRSU := -1 }

/-! ## Claim theorems: handover (C7) and id allocation (C8) -/

/-- C7: completeHandover is a no-op unless the vehicle is mid-handover and
rsuId equals the in-flight target provider id; for a matching response, on
success currentRSU is updated to the target (and the contact time recorded)
and the context (inHandover, targetRSU) is cleared, and on failure the
context is cleared while currentRSU (and the contact-time map) is left
unchanged. -/
theorem completeHandover_cases (st : VehicleState) (rsuId : Int)
    (success : Bool) (now : Rat) :
    (st.inHandover = false ∨ rsuId ≠ st.targetRSU →
      completeHandover st rsuId success now = st) ∧
    (st.inHandover = true → rsuId = st.targetRSU → success = true →
      completeHandover st rsuId success now =
        { currentRSU := st.targetRSU
          targetRSU := -1
          inHandover := false
          rsuContactTimes := insertKey st.rsuContactTimes st.targetRSU now }) ∧
    (st.inHandover = true → rsuId = st.targetRSU → success = false →
      completeHandover st rsuId success now =
        { st with inHandover := false, targetRSU := -1 }) := by
  refine ⟨?_, ?_, ?_⟩
  · rintro (h | h) <;> simp [completeHandover, h]
  · intro h1 h2 h3
    simp [completeHandover, h1, h2, h3]
  · intro h1 h2 h3
    simp [completeHandover, h1, h2, h3]

/-- Witness for completeHandover_cases: concrete instances of all three
branches (stale response ignored; success adopts target; failure keeps the
previous provider). -/
theorem completeHandover_cases_witness :
    (completeHandover ⟨1, 2, true, []⟩ 3 true 5 = ⟨1, 2, true, []⟩) ∧
    (completeHandover ⟨1, 2, true, []⟩ 2 true 5 =
      { currentRSU := 2, targetRSU := -1, inHandover := false
        rsuContactTimes := insertKey ([] : List (Int × Rat)) 2 5 }) ∧
    (completeHandover ⟨1, 2, true, []⟩ 2 false 5 =
      { (⟨1, 2, true, []⟩ : VehicleState) with
          inHandover := false, targetRSU := -1 }) :=
  ⟨(completeHandover_cases ⟨1, 2, true, []⟩ 3 true 5).1 (Or.inr (by decide)),
   (completeHandover_cases ⟨1, 2, true, []⟩ 2 true 5).2.1 rfl rfl rfl,
   (completeHandover_cases ⟨1, 2, true, []⟩ 2 false 5).2.2 rfl rfl rfl⟩

/-- C8 counterexample: transaction ids DO collide across two distinct nodes
for legal counter values: node 1 with local counter 1000001 and node 2 with
local counter 1 both produce id 2000001. -/
theorem txId_cross_node_collision :
    cocoTxId 1 1000001 = cocoTxId 2 1 ∧ (1 : Nat) ≠ 2 := by
  constructor
  · rfl
  · decide

/-- C8 (amended): ids from the same node at distinct counter values are
distinct (absent 64-bit wraparound), and ids from two distinct nodes are
distinct provided both local counters lie in 1..1000000 (and no wraparound);
VehicleApp's id formula agrees with CoCoChainApp's. -/
theorem txId_uniqueness (n n1 n2 c1 c2 : Nat) :
    (c1 ≠ c2 → n * 1000000 + c1 < 2 ^ 64 → n * 1000000 + c2 < 2 ^ 64 →
      cocoTxId n c1 ≠ cocoTxId n c2) ∧
    (n1 ≠ n2 → 1 ≤ c1 → c1 ≤ 1000000 → 1 ≤ c2 → c2 ≤ 1000000 →
      n1 * 1000000 + c1 < 2 ^ 64 → n2 * 1000000 + c2 < 2 ^ 64 →
      cocoTxId n1 c1 ≠ cocoTxId n2 c2) ∧
    vehicleTxId n c1 = cocoTxId n c1 := by
  refine ⟨?_, ?_, ?_⟩
  · intro hne h1 h2
    unfold cocoTxId
    rw [Nat.mod_eq_of_lt (by omega), Nat.mod_eq_of_lt (by omega)]
    omega
  · intro hne hc1l hc1u hc2l hc2u h1 h2
    unfold cocoTxId
    rw [Nat.mod_eq_of_lt (by omega), Nat.mod_eq_of_lt (by omega)]
    rcases Nat.lt_or_ge n1 n2 with h | h
    · omega
    · rcases Nat.lt_or_ge n2 n1 with h' | h'
      · omega
      · omega
  · unfold vehicleTxId cocoTxId
    rw [Nat.add_comm]

/-- Witness for txId_uniqueness: two successive ids of node 3 differ, ids of
nodes 1 and 2 at counter 1 differ, and the two id formulas agree at a
concrete point. -/
theorem txId_uniqueness_witness :
    (cocoTxId 3 1 ≠ cocoTxId 3 2) ∧ (cocoTxId 1 1 ≠ cocoTxId 2 1) ∧
    vehicleTxId 3 1 = cocoTxId 3 1 :=
  ⟨(txId_uniqueness 3 1 2 1 2).1 (by decide) (by decide) (by decide),
   (txId_uniqueness 3 1 2 1 1).2.1 (by decide) (by decide) (by decide)
     (by decide) (by decide) (by decide) (by decide),
   (txId_uniqueness 3 1 2 1 2).2.2⟩

/-! ## Consensus engine state (CoCoChainApp) -/

/-- The CoCoChainApp fields driven by processConsensusMessage /
finalizeTransaction:
std::map<uint64_t, Transaction> pendingTransactions;
std::map<uint64_t, std::vector<ConsensusMessage>> consensusVotes;
std::set<uint64_t> confirmedTransactions;
std::map<uint64_t, simtime_t> transactionStartTimes. -/
structure CocoState where
  pendingTransactions : List (Nat × Transaction)
  consensusVotes : List (Nat × List ConsensusMessage)
  confirmedTransactions : List Nat
  transactionStartTimes : List (Nat × Rat)
deriving DecidableEq

/-- C++ static_cast<int> of a double: truncation toward zero.  For a
rational num/den (den > 0) this is the t-division of num by den. -/
def cppTrunc (q : Rat) : Int :=
  q.num.tdiv q.den

/-- processConsensusMessage, threshold lines:
int estimatedNetworkSize = 100;
int requiredVotes = static_cast<int>(estimatedNetworkSize * bftThreshold). -/
def requiredVotes (bftThreshold : Rat) : Int :=
  cppTrunc (100 * bftThreshold)

/-- Threshold value 1/40 used in concrete scenarios (truncation and ceiling
of 100 × 1/40 = 2.5 differ). -/
def bftCe : Rat := 1/40

/-- Threshold value 1/100 used in concrete scenarios (requiredVotes = 1). -/
def bftLow : Rat := 1/100

/-- Threshold value 1 used in concrete scenarios (requiredVotes = 100). -/
def bftOne : Rat := 1

theorem requiredVotes_bftCe : requiredVotes bftCe = 2 := by
  norm_num [requiredVotes, cppTrunc, bftCe]
  all_goals decide

theorem requiredVotes_bftLow : requiredVotes bftLow = 1 := by
  norm_num [requiredVotes, cppTrunc, bftLow]

theorem requiredVotes_bftOne : requiredVotes bftOne = 100 := by
  norm_num [requiredVotes, cppTrunc, bftOne]

/-- CoCoChainApp::finalizeTransaction(uint64_t txId).  Returns the post-state
together with the end-to-end latency sample emitted on
endToEndLatencySignal, if any.  Source: early return when already
confirmed; insert into confirmedTransactions; if a start time is recorded,
emit (now - startTime) and erase the start time; erase the id from
pendingTransactions and consensusVotes. -/
def finalizeTransaction (now : Rat) (st : CocoState) (txId : Nat) :
    CocoState × Option Rat :=
  if txId ∈ st.confirmedTransactions then (st, none)
  else
    match lookupKey st.transactionStartTimes txId with
    | some t0 =>
        ({ pendingTransactions := eraseKey st.pendingTransactions txId
           consensusVotes := eraseKey st.consensusVotes txId
           confirmedTransactions := txId :: st.confirmedTransactions
           transactionStartTimes := eraseKey st.transactionStartTimes txId },
         some (now - t0))
    | none =>
        ({ pendingTransactions := eraseKey st.pendingTransactions txId
           consensusVotes := eraseKey st.consensusVotes txId
           confirmedTransactions := txId :: st.confirmedTransactions
           transactionStartTimes := st.transactionStartTimes },
         none)

/-- The vote list stored for msg.transactionId after the push_back in
processConsensusMessage: auto& votes = consensusVotes[msg.transactionId]
(default-constructed empty when absent) with msg appended. -/
def votesAfter (st : CocoState) (msg : ConsensusMessage) :
    List ConsensusMessage :=
  ((lookupKey st.consensusVotes msg.transactionId).getD []) ++ [msg]

/-- Local int totalVotes = votes.size() of processConsensusMessage. -/
def totalAfter (st : CocoState) (msg : ConsensusMessage) : Int :=
  (votesAfter st msg).length

/-- Local int positiveVotes of processConsensusMessage (count of accepting
votes in the stored list). -/
def acceptAfter (st : CocoState) (msg : ConsensusMessage) : Int :=
  ((votesAfter st msg).filter (fun v => v.vote)).length

/-- CoCoChainApp::processConsensusMessage(const ConsensusMessage&).
Source: ignore non-VOTE messages; push the message onto
consensusVotes[transactionId] (operator[] default-constructs an empty
vector); count totalVotes and positiveVotes over the stored list; once
totalVotes >= requiredVotes, finalize when positiveVotes >= requiredVotes,
otherwise erase the id from pendingTransactions and consensusVotes
(rejection).  The Option component is the latency sample emitted by a
nested finalizeTransaction call, if any. -/
def processConsensusMessage (bftThreshold : Rat) (now : Rat) (st : CocoState)
    (msg : ConsensusMessage) : CocoState × Option Rat :=
  if msg.type ≠ CMType.VOTE then (st, none)
  else
    let st1 : CocoState :=
      { st with consensusVotes :=
          insertKey st.consensusVotes msg.transactionId (votesAfter st msg) }
    if totalAfter st msg ≥ requiredVotes bftThreshold then
      if acceptAfter st msg ≥ requiredVotes bftThreshold then
        finalizeTransaction now st1 msg.transactionId
      else
        ({ st1 with
            pendingTransactions := eraseKey st1.pendingTransactions msg.transactionId
            consensusVotes := eraseKey st1.consensusVotes msg.transactionId },
         none)
    else (st1, none)

/-! ## Shape lemmas for the consensus operations -/

theorem finalize_noop_of_confirmed (now : Rat) (st : CocoState) (txId : Nat)
    (h : txId ∈ st.confirmedTransactions) :
    finalizeTransaction now st txId = (st, none) := by
  simp [finalizeTransaction, h]

theorem finalize_fst_confirmed (now : Rat) (st : CocoState) (txId : Nat) :
    (finalizeTransaction now st txId).1.confirmedTransactions =
      if txId ∈ st.confirmedTransactions then st.confirmedTransactions
      else txId :: st.confirmedTransactions := by
  unfold finalizeTransaction
  split
  next h => rfl
  next h =>
    cases lookupKey st.transactionStartTimes txId <;> rfl

theorem finalize_lookups_none (now : Rat) (st : CocoState) (txId : Nat)
    (h : txId ∉ st.confirmedTransactions) :
    lookupKey (finalizeTransaction now st txId).1.pendingTransactions txId = none ∧
    lookupKey (finalizeTransaction now st txId).1.consensusVotes txId = none ∧
    lookupKey (finalizeTransaction now st txId).1.transactionStartTimes txId = none := by
  unfold finalizeTransaction
  simp only [if_neg h]
  cases hl : lookupKey st.transactionStartTimes txId <;>
    simp [lookupKey_eraseKey_self, hl]

theorem finalize_emit_not_confirmed (now : Rat) (st : CocoState) (txId : Nat)
    (h : (finalizeTransaction now st txId).2 ≠ none) :
    txId ∉ st.confirmedTransactions := by
  intro hmem
  rw [finalize_noop_of_confirmed now st txId hmem] at h
  exact h rfl

/-! ## Claim theorems: consensus quorum (C1), duplicate votes (C3),
terminal cleanup (C5) -/

/-- C1 counterexample: with bftThreshold = 1/40, processConsensusMessage
finalizes transaction 1 (it enters confirmedTransactions) on the second
accepting vote, although totalCount = 2 is below ceil(100 × 1/40) = 3: the
required-votes threshold in the code is the C++ int cast (truncation toward
zero), not the ceiling the claim states. -/
theorem consensus_ceil_counterexample :
    1 ∈ (processConsensusMessage bftCe 0
        ⟨[], [(1, [⟨CMType.VOTE, 1, 3, true, 0⟩])], [], []⟩
        ⟨CMType.VOTE, 1, 4, true, 0⟩).1.confirmedTransactions ∧
    totalAfter ⟨[], [(1, [⟨CMType.VOTE, 1, 3, true, 0⟩])], [], []⟩
        ⟨CMType.VOTE, 1, 4, true, 0⟩ = 2 ∧
    Int.ceil ((100 : Rat) * bftCe) = 3 := by
  refine ⟨?_, by decide, ?_⟩
  · simp [processConsensusMessage, requiredVotes_bftCe, votesAfter, totalAfter,
      acceptAfter, lookupKey, finalizeTransaction, insertKey, eraseKey]
  · have h : ((100 : Rat) * bftCe) = 5/2 := by norm_num [bftCe]
    rw [h, Int.ceil_eq_iff]
    constructor <;> norm_num

/-- C1 (amended): for a VOTE message, with requiredVotes = the truncation
(static_cast<int>) of 100 × bftThreshold — the floor for a nonnegative
threshold, not the ceiling — the engine finalizes exactly when both
totalCount and acceptCount reach requiredVotes: the id enters
confirmedTransactions in that case (when not already confirmed); when
totalCount reaches requiredVotes but acceptCount falls short, the id is
instead removed from the pending map and the vote map and nothing is
confirmed; below the threshold nothing is confirmed or removed. -/
theorem consensus_quorum_rule (bftThreshold now : Rat) (st : CocoState)
    (msg : ConsensusMessage) (hv : msg.type = CMType.VOTE) :
    (totalAfter st msg ≥ requiredVotes bftThreshold →
      acceptAfter st msg ≥ requiredVotes bftThreshold →
      msg.transactionId ∉ st.confirmedTransactions →
      msg.transactionId ∈
        (processConsensusMessage bftThreshold now st msg).1.confirmedTransactions) ∧
    (totalAfter st msg ≥ requiredVotes bftThreshold →
      acceptAfter st msg < requiredVotes bftThreshold →
      lookupKey (processConsensusMessage bftThreshold now st msg).1.pendingTransactions
          msg.transactionId = none ∧
      lookupKey (processConsensusMessage bftThreshold now st msg).1.consensusVotes
          msg.transactionId = none ∧
      (processConsensusMessage bftThreshold now st msg).1.confirmedTransactions =
        st.confirmedTransactions) ∧
    (totalAfter st msg < requiredVotes bftThreshold →
      (processConsensusMessage bftThreshold now st msg).1.confirmedTransactions =
        st.confirmedTransactions ∧
      (processConsensusMessage bftThreshold now st msg).1.pendingTransactions =
        st.pendingTransactions ∧
      (processConsensusMessage bftThreshold now st msg).2 = none) ∧
    (0 ≤ bftThreshold →
      requiredVotes bftThreshold = Int.floor ((100 : Rat) * bftThreshold)) := by
  have hvn : ¬msg.type ≠ CMType.VOTE := fun hne => hne hv
  refine ⟨?_, ?_, ?_, ?_⟩
  · intro ht ha hmem
    unfold processConsensusMessage
    simp only [if_neg hvn, if_pos ht, if_pos ha, finalize_fst_confirmed]
    simp [hmem]
  · intro ht ha
    unfold processConsensusMessage
    simp only [if_neg hvn, if_pos ht, if_neg (not_le.mpr ha)]
    refine ⟨?_, ?_, ?_⟩
    · exact lookupKey_eraseKey_self _ _
    · exact lookupKey_eraseKey_self _ _
    · trivial
  · intro ht
    unfold processConsensusMessage
    simp only [if_neg hvn, if_neg (not_le.mpr ht)]
    refine ⟨?_, ?_, ?_⟩ <;> trivial
  · intro h0
    have hq : (0 : Rat) ≤ 100 * bftThreshold := mul_nonneg (by norm_num) h0
    unfold requiredVotes cppTrunc
    rw [Rat.floor_def]
    exact Int.tdiv_eq_ediv (Rat.num_nonneg.mpr hq) (Int.natCast_nonneg _)

/-- Witness for consensus_quorum_rule: at bftThreshold = 1/100 (required = 1)
an accepting vote confirms transaction 1, a rejecting vote removes it
instead, at bftThreshold = 1 (required = 100) a single vote changes nothing,
and the threshold value equals the floor formula. -/
theorem consensus_quorum_rule_witness :
    (1 ∈ (processConsensusMessage bftLow 0 ⟨[], [], [], []⟩
        ⟨CMType.VOTE, 1, 2, true, 0⟩).1.confirmedTransactions) ∧
    (lookupKey (processConsensusMessage bftLow 0 ⟨[], [], [], []⟩
        ⟨CMType.VOTE, 1, 2, false, 0⟩).1.pendingTransactions 1 = none ∧
     lookupKey (processConsensusMessage bftLow 0 ⟨[], [], [], []⟩
        ⟨CMType.VOTE, 1, 2, false, 0⟩).1.consensusVotes 1 = none ∧
     (processConsensusMessage bftLow 0 ⟨[], [], [], []⟩
        ⟨CMType.VOTE, 1, 2, false, 0⟩).1.confirmedTransactions = ([] : List Nat)) ∧
    ((processConsensusMessage bftOne 0 ⟨[], [], [], []⟩
        ⟨CMType.VOTE, 1, 2, true, 0⟩).1.confirmedTransactions = ([] : List Nat) ∧
     (processConsensusMessage bftOne 0 ⟨[], [], [], []⟩
        ⟨CMType.VOTE, 1, 2, true, 0⟩).1.pendingTransactions =
        ([] : List (Nat × Transaction)) ∧
     (processConsensusMessage bftOne 0 ⟨[], [], [], []⟩
        ⟨CMType.VOTE, 1, 2, true, 0⟩).2 = none) ∧
    requiredVotes bftLow = Int.floor ((100 : Rat) * bftLow) :=
  ⟨(consensus_quorum_rule bftLow 0 ⟨[], [], [], []⟩ ⟨CMType.VOTE, 1, 2, true, 0⟩
      rfl).1 (by rw [requiredVotes_bftLow]; decide)
      (by rw [requiredVotes_bftLow]; decide) (by decide),
   (consensus_quorum_rule bftLow 0 ⟨[], [], [], []⟩ ⟨CMType.VOTE, 1, 2, false, 0⟩
      rfl).2.1 (by rw [requiredVotes_bftLow]; decide)
      (by rw [requiredVotes_bftLow]; decide),
   (consensus_quorum_rule bftOne 0 ⟨[], [], [], []⟩ ⟨CMType.VOTE, 1, 2, true, 0⟩
      rfl).2.2.1 (by rw [requiredVotes_bftOne]; decide),
   (consensus_quorum_rule bftLow 0 ⟨[], [], [], []⟩ ⟨CMType.VOTE, 1, 2, true, 0⟩
      rfl).2.2.2 (by norm_num [bftLow])⟩

/-- C3 (code-bug evaluation): processing the same VOTE message (transaction
1, voter 2, accept) twice double-counts it: the stored vote list for
transaction 1 grows from length 1 to length 2, so totalCount changes on the
duplicate, violating the one-vote-per-(transactionId, voterId) invariant
the spec states (the code has no deduplication by voter id). -/
theorem duplicate_vote_double_counts :
    ((lookupKey (processConsensusMessage bftOne 0 ⟨[], [], [], []⟩
        ⟨CMType.VOTE, 1, 2, true, 0⟩).1.consensusVotes 1).getD []).length = 1 ∧
    ((lookupKey (processConsensusMessage bftOne 0
        (processConsensusMessage bftOne 0 ⟨[], [], [], []⟩
          ⟨CMType.VOTE, 1, 2, true, 0⟩).1
        ⟨CMType.VOTE, 1, 2, true, 0⟩).1.consensusVotes 1).getD []).length = 2 := by
  constructor <;>
    simp [processConsensusMessage, requiredVotes_bftOne, votesAfter, totalAfter,
      acceptAfter, lookupKey, insertKey, eraseKey]

/-- C5 counterexample: a consensus rejection reaches a terminal outcome for
transaction 1 (pending-map and vote-map entries removed) but leaves the
start-time map entry in place: transactionStartTimes still maps 1 to 0
afterwards, so in-flight tracking is NOT garbage-collected on the reject
path. -/
theorem reject_leaves_start_time_entry :
    lookupKey (processConsensusMessage bftLow 3
        ⟨[(1, ⟨1, ⟨[], 0, 3, false, false⟩, "", 0, 3, false⟩)], [], [], [(1, 0)]⟩
        ⟨CMType.VOTE, 1, 2, false, 0⟩).1.pendingTransactions 1 = none ∧
    lookupKey (processConsensusMessage bftLow 3
        ⟨[(1, ⟨1, ⟨[], 0, 3, false, false⟩, "", 0, 3, false⟩)], [], [], [(1, 0)]⟩
        ⟨CMType.VOTE, 1, 2, false, 0⟩).1.consensusVotes 1 = none ∧
    lookupKey (processConsensusMessage bftLow 3
        ⟨[(1, ⟨1, ⟨[], 0, 3, false, false⟩, "", 0, 3, false⟩)], [], [], [(1, 0)]⟩
        ⟨CMType.VOTE, 1, 2, false, 0⟩).1.transactionStartTimes 1 = some 0 := by
  refine ⟨?_, ?_, ?_⟩ <;>
    simp [processConsensusMessage, requiredVotes_bftLow, votesAfter, totalAfter,
      acceptAfter, lookupKey, insertKey, eraseKey]

/-- C5 (amended): at the step that reaches a terminal outcome, the finalize
path removes the transaction id from the pending map, the vote map and the
start-time map, while the reject path removes it from the pending map and
the vote map but leaves the start-time map untouched. -/
theorem terminal_paths_cleanup (bftThreshold now : Rat) (st : CocoState)
    (msg : ConsensusMessage) (hv : msg.type = CMType.VOTE) :
    (totalAfter st msg ≥ requiredVotes bftThreshold →
      acceptAfter st msg ≥ requiredVotes bftThreshold →
      msg.transactionId ∉ st.confirmedTransactions →
      lookupKey (processConsensusMessage bftThreshold now st msg).1.pendingTransactions
          msg.transactionId = none ∧
      lookupKey (processConsensusMessage bftThreshold now st msg).1.consensusVotes
          msg.transactionId = none ∧
      lookupKey (processConsensusMessage bftThreshold now st msg).1.transactionStartTimes
          msg.transactionId = none) ∧
    (totalAfter st msg ≥ requiredVotes bftThreshold →
      acceptAfter st msg < requiredVotes bftThreshold →
      lookupKey (processConsensusMessage bftThreshold now st msg).1.pendingTransactions
          msg.transactionId = none ∧
      lookupKey (processConsensusMessage bftThreshold now st msg).1.consensusVotes
          msg.transactionId = none ∧
      (processConsensusMessage bftThreshold now st msg).1.transactionStartTimes =
        st.transactionStartTimes) := by
  have hvn : ¬msg.type ≠ CMType.VOTE := fun hne => hne hv
  constructor
  · intro ht ha hmem
    unfold processConsensusMessage
    simp only [if_neg hvn, if_pos ht, if_pos ha]
    exact finalize_lookups_none now _ msg.transactionId hmem
  · intro ht ha
    unfold processConsensusMessage
    simp only [if_neg hvn, if_pos ht, if_neg (not_le.mpr ha)]
    refine ⟨?_, ?_, ?_⟩
    · exact lookupKey_eraseKey_self _ _
    · exact lookupKey_eraseKey_self _ _
    · trivial

/-- Witness for terminal_paths_cleanup: with a recorded start time for
transaction 1 and required = 1, an accepting vote clears all three entries,
while a rejecting vote clears the first two and keeps the start-time map. -/
theorem terminal_paths_cleanup_witness :
    (lookupKey (processConsensusMessage bftLow 3 ⟨[], [], [], [(1, 0)]⟩
        ⟨CMType.VOTE, 1, 2, true, 0⟩).1.pendingTransactions 1 = none ∧
     lookupKey (processConsensusMessage bftLow 3 ⟨[], [], [], [(1, 0)]⟩
        ⟨CMType.VOTE, 1, 2, true, 0⟩).1.consensusVotes 1 = none ∧
     lookupKey (processConsensusMessage bftLow 3 ⟨[], [], [], [(1, 0)]⟩
        ⟨CMType.VOTE, 1, 2, true, 0⟩).1.transactionStartTimes 1 = none) ∧
    (lookupKey (processConsensusMessage bftLow 3 ⟨[], [], [], [(1, 0)]⟩
        ⟨CMType.VOTE, 1, 2, false, 0⟩).1.pendingTransactions 1 = none ∧
     lookupKey (processConsensusMessage bftLow 3 ⟨[], [], [], [(1, 0)]⟩
        ⟨CMType.VOTE, 1, 2, false, 0⟩).1.consensusVotes 1 = none ∧
     (processConsensusMessage bftLow 3 ⟨[], [], [], [(1, 0)]⟩
        ⟨CMType.VOTE, 1, 2, false, 0⟩).1.transactionStartTimes =
          ([(1, 0)] : List (Nat × Rat))) :=
  ⟨(terminal_paths_cleanup bftLow 3 ⟨[], [], [], [(1, 0)]⟩
      ⟨CMType.VOTE, 1, 2, true, 0⟩ rfl).1 (by rw [requiredVotes_bftLow]; decide)
      (by rw [requiredVotes_bftLow]; decide) (by decide),
   (terminal_paths_cleanup bftLow 3 ⟨[], [], [], [(1, 0)]⟩
      ⟨CMType.VOTE, 1, 2, false, 0⟩ rfl).2 (by rw [requiredVotes_bftLow]; decide)
      (by rw [requiredVotes_bftLow]; decide)⟩

/-! ## Operation traces of the consensus engine (C4) -/

/-- One externally triggered consensus-engine operation: either
processConsensusMessage on a received CONSENSUS packet, or a
finalizeTransaction call, each at some simulated time. -/
inductive CocoOp where
  | vote (msg : ConsensusMessage) (now : Rat)
  | finalize (txId : Nat) (now : Rat)

/-- One step of the engine.  The emitted latency sample (if any) is tagged
with the transaction id it was emitted for (the emit in finalizeTransaction
happens for exactly the id being finalized). -/
def stepCoco (bft : Rat) (st : CocoState) : CocoOp → CocoState × Option (Nat × Rat)
  | CocoOp.vote msg now =>
      ((processConsensusMessage bft now st msg).1,
       (processConsensusMessage bft now st msg).2.map (fun l => (msg.transactionId, l)))
  | CocoOp.finalize txId now =>
      ((finalizeTransaction now st txId).1,
       (finalizeTransaction now st txId).2.map (fun l => (txId, l)))

/-- Run a list of operations, collecting every emitted latency sample. -/
def runCoco (bft : Rat) (st : CocoState) : List CocoOp → CocoState × List (Nat × Rat)
  | [] => (st, [])
  | op :: ops =>
      ((runCoco bft (stepCoco bft st op).1 ops).1,
       (stepCoco bft st op).2.toList ++ (runCoco bft (stepCoco bft st op).1 ops).2)

/-- Number of latency samples emitted for a given transaction id. -/
def emCount (txId : Nat) (es : List (Nat × Rat)) : Nat :=
  (es.filter (fun p => p.1 == txId)).length

theorem emCount_append (txId : Nat) (l1 l2 : List (Nat × Rat)) :
    emCount txId (l1 ++ l2) = emCount txId l1 + emCount txId l2 := by
  simp [emCount, List.filter_append]

theorem finalize_confirmed_superset (now : Rat) (st : CocoState) (txId a : Nat)
    (h : a ∈ st.confirmedTransactions) :
    a ∈ (finalizeTransaction now st txId).1.confirmedTransactions := by
  rw [finalize_fst_confirmed]
  split
  · exact h
  · exact List.mem_cons_of_mem _ h

theorem finalize_txId_confirmed (now : Rat) (st : CocoState) (txId : Nat) :
    txId ∈ (finalizeTransaction now st txId).1.confirmedTransactions := by
  rw [finalize_fst_confirmed]
  split
  next h => exact h
  next h => exact List.mem_cons_self _ _

theorem process_shape (bft now : Rat) (st : CocoState) (msg : ConsensusMessage) :
    (∃ st1 : CocoState,
        st1.confirmedTransactions = st.confirmedTransactions ∧
        processConsensusMessage bft now st msg = (st1, none)) ∨
    (∃ st1 : CocoState,
        st1.confirmedTransactions = st.confirmedTransactions ∧
        processConsensusMessage bft now st msg =
          finalizeTransaction now st1 msg.transactionId) := by
  unfold processConsensusMessage
  split
  · exact Or.inl ⟨st, rfl, rfl⟩
  · split
    · split
      · exact Or.inr
          ⟨{ st with
               consensusVotes :=
                 insertKey st.consensusVotes msg.transactionId (votesAfter st msg) },
            rfl, rfl⟩
      · exact Or.inl
          ⟨{ pendingTransactions := eraseKey st.pendingTransactions msg.transactionId,
             consensusVotes := eraseKey
               (insertKey st.consensusVotes msg.transactionId (votesAfter st msg))
               msg.transactionId,
             confirmedTransactions := st.confirmedTransactions,
             transactionStartTimes := st.transactionStartTimes }, rfl, rfl⟩
    · exact Or.inl
        ⟨{ st with
             consensusVotes :=
               insertKey st.consensusVotes msg.transactionId (votesAfter st msg) },
          rfl, rfl⟩

theorem step_confirmed_mono (bft : Rat) (st : CocoState) (op : CocoOp) (a : Nat)
    (h : a ∈ st.confirmedTransactions) :
    a ∈ (stepCoco bft st op).1.confirmedTransactions := by
  cases op with
  | vote msg now =>
      show a ∈ (processConsensusMessage bft now st msg).1.confirmedTransactions
      rcases process_shape bft now st msg with ⟨st1, hc, heq⟩ | ⟨st1, hc, heq⟩
      · rw [heq]
        show a ∈ st1.confirmedTransactions
        rw [hc]; exact h
      · rw [heq]
        exact finalize_confirmed_superset now st1 msg.transactionId a
          (by rw [hc]; exact h)
  | finalize txId now =>
      exact finalize_confirmed_superset now st txId a h

theorem finalize_tagged_emit (now : Rat) (st1 : CocoState) (txId a : Nat)
    (l : Rat)
    (h : ((finalizeTransaction now st1 txId).2.map (fun x => (txId, x))) =
      some (a, l)) :
    a = txId ∧ (finalizeTransaction now st1 txId).2 ≠ none := by
  cases hf : (finalizeTransaction now st1 txId).2 with
  | none => rw [hf] at h; simp at h
  | some lat =>
      rw [hf] at h
      simp only [Option.map_some', Option.some.injEq, Prod.mk.injEq] at h
      exact ⟨h.1.symm, by simp⟩

theorem step_emit_confirms (bft : Rat) (st : CocoState) (op : CocoOp)
    (a : Nat) (l : Rat) (h : (stepCoco bft st op).2 = some (a, l)) :
    a ∉ st.confirmedTransactions ∧
    a ∈ (stepCoco bft st op).1.confirmedTransactions := by
  cases op with
  | vote msg now =>
      have hstep1 : (stepCoco bft st (CocoOp.vote msg now)).1 =
          (processConsensusMessage bft now st msg).1 := rfl
      have hstep2 : (stepCoco bft st (CocoOp.vote msg now)).2 =
          (processConsensusMessage bft now st msg).2.map
            (fun l => (msg.transactionId, l)) := rfl
      rw [hstep2] at h
      rcases process_shape bft now st msg with ⟨st1, hc, heq⟩ | ⟨st1, hc, heq⟩
      · rw [heq] at h
        simp at h
      · rw [heq] at h
        obtain ⟨ha, hne⟩ := finalize_tagged_emit now st1 msg.transactionId a l h
        have hnc := finalize_emit_not_confirmed now st1 msg.transactionId hne
        constructor
        · rw [ha, ← hc]
          exact hnc
        · rw [hstep1, heq, ha]
          exact finalize_txId_confirmed now st1 msg.transactionId
  | finalize txId now =>
      have hstep1 : (stepCoco bft st (CocoOp.finalize txId now)).1 =
          (finalizeTransaction now st txId).1 := rfl
      have hstep2 : (stepCoco bft st (CocoOp.finalize txId now)).2 =
          (finalizeTransaction now st txId).2.map (fun l => (txId, l)) := rfl
      rw [hstep2] at h
      obtain ⟨ha, hne⟩ := finalize_tagged_emit now st txId a l h
      constructor
      · rw [ha]
        exact finalize_emit_not_confirmed now st txId hne
      · rw [hstep1, ha]
        exact finalize_txId_confirmed now st txId

theorem run_no_emit_of_confirmed (bft : Rat) (txId : Nat) :
    ∀ (ops : List CocoOp) (st : CocoState), txId ∈ st.confirmedTransactions →
      emCount txId (runCoco bft st ops).2 = 0 := by
  intro ops
  induction ops with
  | nil => intro st _; rfl
  | cons op ops ih =>
      intro st h
      show emCount txId ((stepCoco bft st op).2.toList ++
        (runCoco bft (stepCoco bft st op).1 ops).2) = 0
      rw [emCount_append]
      have h1 : emCount txId (stepCoco bft st op).2.toList = 0 := by
        cases he : (stepCoco bft st op).2 with
        | none => rfl
        | some p =>
            rcases p with ⟨a, l⟩
            by_cases hax : a = txId
            · subst hax
              exact absurd h (step_emit_confirms bft st op a l he).1
            · simp [emCount, Option.toList, hax]
      rw [h1, ih _ (step_confirmed_mono bft st op txId h)]

theorem run_emits_at_most_one (bft : Rat) (txId : Nat) :
    ∀ (ops : List CocoOp) (st : CocoState),
      emCount txId (runCoco bft st ops).2 ≤ 1 := by
  intro ops
  induction ops with
  | nil => intro st; exact Nat.zero_le 1
  | cons op ops ih =>
      intro st
      show emCount txId ((stepCoco bft st op).2.toList ++
        (runCoco bft (stepCoco bft st op).1 ops).2) ≤ 1
      rw [emCount_append]
      cases he : (stepCoco bft st op).2 with
      | none =>
          simpa [emCount, Option.toList] using ih (stepCoco bft st op).1
      | some p =>
          rcases p with ⟨a, l⟩
          by_cases hax : a = txId
          · subst hax
            have h0 := run_no_emit_of_confirmed bft a ops _
              (step_emit_confirms bft st op a l he).2
            rw [h0]
            simp [emCount, Option.toList]
          · have h0 := ih (stepCoco bft st op).1
            have h1 : emCount txId (Option.toList (some (a, l))) = 0 := by
              simp [emCount, Option.toList, hax]
            rw [h1]
            simpa using h0

/-- C4: finalizeTransaction is idempotent — calling it for an
already-confirmed transaction id returns the state unchanged (confirmed set,
pending map, vote map and start-time map all untouched) and emits no latency
sample — and over any whole run of consensus operations (vote processing and
finalize calls) at most one end-to-end latency sample is emitted per
transaction id. -/
theorem finalize_idempotent_single_latency (now : Rat) (st : CocoState)
    (txId : Nat) (bft : Rat) (ops : List CocoOp) (st0 : CocoState) :
    (txId ∈ st.confirmedTransactions →
      finalizeTransaction now st txId = (st, none)) ∧
    emCount txId (runCoco bft st0 ops).2 ≤ 1 :=
  ⟨fun h => finalize_noop_of_confirmed now st txId h,
   run_emits_at_most_one bft txId ops st0⟩

/-- Witness for finalize_idempotent_single_latency: finalizing the already
confirmed id 7 is a no-op without emission, and a run that finalizes id 7
twice (with a recorded start time) emits at most one sample for it. -/
theorem finalize_idempotent_single_latency_witness :
    (finalizeTransaction 5 ⟨[], [], [7], []⟩ 7 = (⟨[], [], [7], []⟩, none)) ∧
    emCount 7 (runCoco bftOne ⟨[], [], [], [(7, 0)]⟩
      [CocoOp.finalize 7 1, CocoOp.finalize 7 2]).2 ≤ 1 :=
  ⟨(finalize_idempotent_single_latency 5 ⟨[], [], [7], []⟩ 7 bftOne []
      ⟨[], [], [], []⟩).1 (by decide),
   (finalize_idempotent_single_latency 5 ⟨[], [], [7], []⟩ 7 bftOne
      [CocoOp.finalize 7 1, CocoOp.finalize 7 2] ⟨[], [], [], [(7, 0)]⟩).2⟩

/-! ## Semantic digest (computeSemanticDigest, C9) -/

/-- Left-pad a numeral string to 6 digits with zero characters (the
fractional part of the %.6f fixed rendering). -/
def padZeros6 (s : String) : String :=
  String.mk (List.replicate (6 - s.length) '0') ++ s

/-- Fixed-point rendering of a nonnegative rational with 6 fractional
digits, as produced by std::ostringstream under std::fixed and
std::setprecision(6): the value rounded to the nearest multiple of 10^-6,
printed as integer part, a dot, and 6 fractional digits. -/
def renderNonneg6 (q : Rat) : String :=
  toString ((round (q * 1000000)).toNat / 1000000) ++ "." ++
    padZeros6 (toString ((round (q * 1000000)).toNat % 1000000))

/-- %.6f rendering of a rational; a negative value is rendered as the
minus sign followed by the rendering of its negation. -/
def render6 (q : Rat) : String :=
  if q < 0 then "-" ++ renderNonneg6 (-q) else renderNonneg6 q

/-- The separator-joined coordinate string hashed by computeSemanticDigest:
each coordinate rendered to 6 decimals, each followed by a semicolon. -/
def digestInput (data : List Rat) : String :=
  String.join (data.map (fun v => render6 v ++ ";"))

/-- Model of std::hash<std::string>: implementation-defined but a fixed
deterministic function of the string; modelled as a 64-bit FNV-1a-style
fold.  The properties proved here depend only on its being a function of
the string. -/
def stdHashString (s : String) : Nat :=
  s.foldl (fun h c => ((h ^^^ c.toNat) * 1099511628211) % 2 ^ 64)
    14695981039346656037

/-- Hex rendering of the hash value (std::hex stream output). -/
def toHexString (n : Nat) : String :=
  String.mk (Nat.toDigits 16 n)

/-- CoCoChainApp::computeSemanticDigest(const ConceptVector&): render each
coordinate with fixed precision 6 followed by a semicolon, hash the
resulting string, render the hash in hex. -/
def computeSemanticDigest (cv : ConceptVector) : String :=
  toHexString (stdHashString (digestInput cv.data))

/-- C9: the semantic digest is a pure, deterministic function of the
coordinate sequence as rendered to 6 fractional decimal digits: any two
concept vectors whose rendered coordinate sequences agree produce identical
digest strings. -/
theorem digest_deterministic (cv1 cv2 : ConceptVector)
    (h : cv1.data.map render6 = cv2.data.map render6) :
    computeSemanticDigest cv1 = computeSemanticDigest cv2 := by
  unfold computeSemanticDigest digestInput
  have e1 : cv1.data.map (fun v => render6 v ++ ";") =
      (cv1.data.map render6).map (fun s => s ++ ";") :=
    (List.map_map (fun s => s ++ ";") render6 cv1.data).symm
  have e2 : cv2.data.map (fun v => render6 v ++ ";") =
      (cv2.data.map render6).map (fun s => s ++ ";") :=
    (List.map_map (fun s => s ++ ";") render6 cv2.data).symm
  rw [e1, e2, h]

theorem render6_one_third : render6 (1/3) = "0.333333" := by
  have h1 : round ((1/3 : Rat) * 1000000) = 333333 := by
    rw [round_eq]
    have h2 : (1/3 : Rat) * 1000000 + 1/2 = 2000003/6 := by norm_num
    rw [h2, Int.floor_eq_iff]
    constructor <;> norm_num
  unfold render6
  rw [if_neg (by norm_num)]
  unfold renderNonneg6
  rw [h1]
  rfl

theorem render6_decimal : render6 (33333333/100000000) = "0.333333" := by
  have h1 : round ((33333333/100000000 : Rat) * 1000000) = 333333 := by
    rw [round_eq]
    have h2 : (33333333/100000000 : Rat) * 1000000 + 1/2 = 33333383/100 := by
      norm_num
    rw [h2, Int.floor_eq_iff]
    constructor <;> norm_num
  unfold render6
  rw [if_neg (by norm_num)]
  unfold renderNonneg6
  rw [h1]
  rfl

/-- Witness for digest_deterministic: 1/3 and 0.33333333 are different
rationals but both render to 0.333333, hence get the same digest. -/
theorem digest_deterministic_witness :
    computeSemanticDigest ⟨[1/3], 0, 0, false, false⟩ =
      computeSemanticDigest ⟨[33333333/100000000], 0, 0, false, false⟩ :=
  digest_deterministic ⟨[1/3], 0, 0, false, false⟩
    ⟨[33333333/100000000], 0, 0, false, false⟩
    (by rw [List.map_cons, List.map_nil, List.map_cons, List.map_nil,
      render6_one_third, render6_decimal])

/-! ## Cosine similarity (calculateCosineSimilarity, C10) -/

/-- The dot-product accumulator of the loop in calculateCosineSimilarity
(the loop runs over indices of two equal-size vectors). -/
def dotProduct (a b : List Rat) : Rat :=
  ((a.zip b).map (fun p => p.1 * p.2)).sum

/-- The squared-norm accumulator (normA / normB) of the same loop. -/
def normSq (a : List Rat) : Rat :=
  (a.map (fun v => v * v)).sum

/-- CoCoChainApp::calculateCosineSimilarity: 0 when the sizes differ; after
the accumulation loop, 0 when either squared norm is 0; otherwise
dotProduct / (sqrt(normA) * sqrt(normB)), over the reals. -/
noncomputable def calculateCosineSimilarity (a b : List Rat) : Real :=
  if a.length ≠ b.length then 0
  else if normSq a = 0 ∨ normSq b = 0 then 0
  else (dotProduct a b : Real) /
    (Real.sqrt (normSq a) * Real.sqrt (normSq b))

theorem normSq_nonneg (a : List Rat) : 0 ≤ normSq a := by
  unfold normSq
  apply List.sum_nonneg
  intro x hx
  obtain ⟨v, _, rfl⟩ := List.mem_map.mp hx
  exact mul_self_nonneg v

/-- C10: calculateCosineSimilarity is total and its division is guarded:
whenever the lengths differ or either squared norm is 0 the result is
exactly 0, and otherwise the divisor sqrt(normA) * sqrt(normB) is strictly
positive (in particular nonzero) and the result is the quotient by it. -/
theorem cosineSimilarity_guarded (a b : List Rat) :
    (a.length ≠ b.length ∨ normSq a = 0 ∨ normSq b = 0 →
      calculateCosineSimilarity a b = 0) ∧
    (a.length = b.length → normSq a ≠ 0 → normSq b ≠ 0 →
      0 < Real.sqrt (normSq a) * Real.sqrt (normSq b) ∧
      calculateCosineSimilarity a b =
        (dotProduct a b : Real) /
          (Real.sqrt (normSq a) * Real.sqrt (normSq b))) := by
  constructor
  · intro h
    unfold calculateCosineSimilarity
    split
    next => rfl
    next hlen =>
      rcases h with hl | hOr
      · exact absurd hl hlen
      · rw [if_pos hOr]
  · intro hlen hA hB
    have hApos : (0 : Real) < (normSq a : Real) := by
      exact_mod_cast lt_of_le_of_ne (normSq_nonneg a) (Ne.symm hA)
    have hBpos : (0 : Real) < (normSq b : Real) := by
      exact_mod_cast lt_of_le_of_ne (normSq_nonneg b) (Ne.symm hB)
    have hs : 0 < Real.sqrt (normSq a) * Real.sqrt (normSq b) :=
      mul_pos (Real.sqrt_pos.mpr hApos) (Real.sqrt_pos.mpr hBpos)
    refine ⟨hs, ?_⟩
    unfold calculateCosineSimilarity
    rw [if_neg (by simp [hlen]), if_neg (by simp [hA, hB])]

/-- Witness for cosineSimilarity_guarded: mismatched lengths give exactly 0,
and for the one-element vectors [1] and [2] the divisor is positive. -/
theorem cosineSimilarity_guarded_witness :
    calculateCosineSimilarity [1] [1, 2] = 0 ∧
    0 < Real.sqrt (normSq [1]) * Real.sqrt (normSq [2]) :=
  ⟨(cosineSimilarity_guarded [1] [1, 2]).1 (Or.inl (by decide)),
   ((cosineSimilarity_guarded [1] [2]).2 rfl (by norm_num [normSq])
     (by norm_num [normSq])).1⟩

/-! ## Semantic-integrity verification (verifySemanticIntegrity, C2) -/

/-- The CoCoChainApp configuration parameters read by
verifySemanticIntegrity (par("semanticVerification") and
par("cosineSimilarityThreshold")). -/
structure Config where
  semanticVerification : Bool
  cosineSimilarityThreshold : Rat

/-- CoCoChainApp::isTopKConcept: true as soon as any coordinate exceeds 0.8
in absolute value, otherwise the vector's isTopK flag. -/
def isTopKConcept (cv : ConceptVector) : Bool :=
  cv.data.any (fun v => |v| > 8/10) || cv.isTopK

/-- The mean accumulator of verifySemanticIntegrity (sum of coordinates
divided by data.size(); rational division by zero yields 0 for the empty
vector, where the C++ would divide by zero). -/
def vectorMean (data : List Rat) : Rat :=
  data.sum / data.length

/-- The population-variance accumulator of verifySemanticIntegrity. -/
def vectorVariance (data : List Rat) : Rat :=
  ((data.map (fun v => (v - vectorMean data) * (v - vectorMean data))).sum) /
    data.length

open Classical in
/-- CoCoChainApp::verifySemanticIntegrity(const Transaction&).  The
reference vector drawn by generateConceptVector() for the top-k similarity
check is passed explicitly (it is an RNG draw).  Source: return true
immediately when semantic verification is disabled; otherwise reject on
digest mismatch, then on variance > 2.0, then (for top-k vectors) on cosine
similarity below the configured threshold; otherwise accept. -/
noncomputable def verifySemanticIntegrity (cfg : Config)
    (refVector : List Rat) (tx : Transaction) : Bool :=
  if !cfg.semanticVerification then true
  else
    if computeSemanticDigest tx.conceptVector == tx.semanticDigest then
      if vectorVariance tx.conceptVector.data > 2 then false
      else if isTopKConcept tx.conceptVector then
        if calculateCosineSimilarity tx.conceptVector.data refVector <
            (cfg.cosineSimilarityThreshold : Real) then false
        else true
      else true
    else false

/-- C2 counterexample: with semantic verification administratively disabled
(config flag false), verifySemanticIntegrity returns true — it accepts —
for a concrete transaction, not false as the claim states. -/
theorem verify_disabled_counterexample :
    verifySemanticIntegrity ⟨false, 1/5⟩ []
      ⟨1, ⟨[], 0, 3, false, false⟩, "", 0, 3, false⟩ = true := by
  simp [verifySemanticIntegrity]

/-- C2 (amended): when semantic verification is administratively disabled
by configuration, verifySemanticIntegrity returns true immediately for
every transaction (all checks are skipped and everything is accepted). -/
theorem verify_disabled_accepts (cfg : Config) (refVector : List Rat)
    (tx : Transaction) (h : cfg.semanticVerification = false) :
    verifySemanticIntegrity cfg refVector tx = true := by
  simp [verifySemanticIntegrity, h]

/-- Witness for verify_disabled_accepts at a concrete disabled
configuration and transaction. -/
theorem verify_disabled_accepts_witness :
    verifySemanticIntegrity ⟨false, 1/5⟩ [1]
      ⟨2, ⟨[1], 0, 4, false, false⟩, "x", 0, 4, false⟩ = true :=
  verify_disabled_accepts ⟨false, 1/5⟩ [1]
    ⟨2, ⟨[1], 0, 4, false, false⟩, "x", 0, 4, false⟩ rfl

/-! ## False-positive-rate metrics (C6) -/

/-- The CoCoChainApp metrics counters read by updateFalsePositiveRate and
finish (C++ ints; they only ever increment, modelled as Nat). -/
structure Metrics where
  totalValidTransactions : Nat
  totalMalformedDetected : Nat
  totalFalsePositives : Nat
deriving DecidableEq

/-- The conditional false-positive increment at the top of
updateFalsePositiveRate: if (wasValid && wasRejected) totalFalsePositives++. -/
def bumpFp (m : Metrics) (wasValid wasRejected : Bool) : Metrics :=
  if wasValid && wasRejected then
    { m with totalFalsePositives := m.totalFalsePositives + 1 }
  else m

/-- CoCoChainApp::updateFalsePositiveRate(bool wasValid, bool wasRejected).
Returns the updated counters together with, when the emission guard
((totalValidTransactions + totalMalformedDetected) > 0) passes, the
(numerator, denominator) pair of the double division the code then
performs for the emitted falsePositiveRate sample. -/
def updateFalsePositiveRate (m : Metrics) (wasValid wasRejected : Bool) :
    Metrics × Option (Nat × Nat) :=
  if (bumpFp m wasValid wasRejected).totalValidTransactions +
      (bumpFp m wasValid wasRejected).totalMalformedDetected > 0 then
    (bumpFp m wasValid wasRejected,
     some ((bumpFp m wasValid wasRejected).totalFalsePositives,
       (bumpFp m wasValid wasRejected).totalValidTransactions +
         (bumpFp m wasValid wasRejected).totalFalsePositives))
  else (bumpFp m wasValid wasRejected, none)

/-- The final-FPR division of CoCoChainApp::finish, performed only when
(totalValidTransactions + totalFalsePositives) > 0; again the
(numerator, denominator) pair of the division when performed. -/
def finishFpr (m : Metrics) : Option (Nat × Nat) :=
  if m.totalValidTransactions + m.totalFalsePositives > 0 then
    some (m.totalFalsePositives,
      m.totalValidTransactions + m.totalFalsePositives)
  else none

/-- C6 counterexample: in the reachable counter state (validCount = 0,
malformedDetected = 1, falsePositives = 0) updateFalsePositiveRate DOES
perform the division — its guard checks validCount + malformedDetected, not
the denominator — and the denominator validCount + falsePositives is 0: a
0/0 division is performed. -/
theorem fpr_zero_denominator_division :
    updateFalsePositiveRate ⟨0, 1, 0⟩ false false = (⟨0, 1, 0⟩, some (0, 0)) := by
  rfl

/-- C6 (amended): the rate is always computed as
falsePositives / (validCount + falsePositives) — the emitted pair is
exactly that numerator and denominator — and the finish computation guards
on the true denominator (positive whenever the division runs); but
updateFalsePositiveRate guards on validCount + malformedDetected > 0
instead, so there the division is performed exactly when that unrelated sum
is positive, and a zero denominator is not excluded. -/
theorem fpr_guard_characterization (m : Metrics) (wasValid wasRejected : Bool) :
    ((updateFalsePositiveRate m wasValid wasRejected).2 = none ↔
      (bumpFp m wasValid wasRejected).totalValidTransactions +
        (bumpFp m wasValid wasRejected).totalMalformedDetected = 0) ∧
    (∀ num den,
      (updateFalsePositiveRate m wasValid wasRejected).2 = some (num, den) →
      num = (bumpFp m wasValid wasRejected).totalFalsePositives ∧
      den = (bumpFp m wasValid wasRejected).totalValidTransactions +
        (bumpFp m wasValid wasRejected).totalFalsePositives) ∧
    (∀ num den, finishFpr m = some (num, den) →
      num = m.totalFalsePositives ∧
      den = m.totalValidTransactions + m.totalFalsePositives ∧ 0 < den) := by
  refine ⟨?_, ?_, ?_⟩
  · unfold updateFalsePositiveRate
    split
    next h => simp; omega
    next h => simp; omega
  · intro num den hsome
    unfold updateFalsePositiveRate at hsome
    split at hsome
    next hg =>
      simp only [Prod.mk.injEq, Option.some.injEq] at hsome
      exact ⟨hsome.1.symm, hsome.2.symm⟩
    next hg => simp at hsome
  · intro num den hsome
    unfold finishFpr at hsome
    split at hsome
    next hg =>
      simp only [Option.some.injEq, Prod.mk.injEq] at hsome
      exact ⟨hsome.1.symm, hsome.2.symm, by omega⟩
    next hg => simp at hsome

/-- Witness for fpr_guard_characterization at the counter state
(valid = 1, malformed = 0, falsePositives = 0): the sample is emitted with
numerator 0 and denominator 1, and the finish division has denominator 1. -/
theorem fpr_guard_characterization_witness :
    ((updateFalsePositiveRate ⟨1, 0, 0⟩ false false).2 = none ↔
      (bumpFp ⟨1, 0, 0⟩ false false).totalValidTransactions +
        (bumpFp ⟨1, 0, 0⟩ false false).totalMalformedDetected = 0) ∧
    ((0 : Nat) = (bumpFp ⟨1, 0, 0⟩ false false).totalFalsePositives ∧
      (1 : Nat) = (bumpFp ⟨1, 0, 0⟩ false false).totalValidTransactions +
        (bumpFp ⟨1, 0, 0⟩ false false).totalFalsePositives) ∧
    ((0 : Nat) = (⟨1, 0, 0⟩ : Metrics).totalFalsePositives ∧
      (1 : Nat) = (⟨1, 0, 0⟩ : Metrics).totalValidTransactions +
        (⟨1, 0, 0⟩ : Metrics).totalFalsePositives ∧ (0 : Nat) < 1) :=
  ⟨(fpr_guard_characterization ⟨1, 0, 0⟩ false false).1,
   (fpr_guard_characterization ⟨1, 0, 0⟩ false false).2.1 0 1 (by decide),
   (fpr_guard_characterization ⟨1, 0, 0⟩ false false).2.2 0 1 (by decide)⟩
